import Mathlib

/-!
Verification of the text-analysis engine of the persian-writing-app
repository (src/persian_writer/analysis.py), shallowly embedded in Lean.
Texts are lists of characters; every Python helper used by analyze_text
and format_metrics is translated into an executable Lean definition.
-/

/-- Between lo and hi, inclusive, as a Bool on Nat. -/
def between (lo hi n : Nat) : Bool :=
  decide (lo ≤ n) && decide (n ≤ hi)

/-- Characters matched by the SENTENCE_ENDINGS regex class [\.؟!！!]:
the ASCII period, the Arabic question mark U+061F, the ASCII exclamation
mark (listed twice in the class), and the full-width exclamation mark
U+FF01.  The ASCII question mark U+003F is not in the class. -/
def isSentenceEnding (c : Char) : Bool :=
  c == '.' || c == '؟' || c == '!' || c == '！'

/-- Characters treated as whitespace by Python: the regex class \s and the
no-argument str.split and str.strip.  ASCII space, tab, newline, carriage
return, vertical tab, form feed, the separator controls 0x1c-0x1f, and the
Unicode space characters. -/
def isPySpace (c : Char) : Bool :=
  let n := c.toNat
  n == 32 || n == 9 || n == 10 || n == 13 || n == 11 || n == 12 ||
  between 28 31 n || n == 0x85 || n == 0xa0 || n == 0x1680 ||
  between 0x2000 0x200a n || n == 0x2028 || n == 0x2029 ||
  n == 0x202f || n == 0x205f || n == 0x3000

/-- Characters matched by the regex class \w under re.UNICODE, restricted
to the scripts this application processes: ASCII letters, ASCII digits,
the underscore, Arabic-block letters (including the Persian letters in the
extended range), and the Arabic-Indic and Extended Arabic-Indic digits. -/
def isWordChar (c : Char) : Bool :=
  let n := c.toNat
  between 97 122 n || between 65 90 n || between 48 57 n || n == 95 ||
  between 0x621 0x64a n || between 0x660 0x669 n ||
  between 0x66e 0x6d3 n || between 0x6f0 0x6f9 n

/-- re.split with a single-character class: every character satisfying p
is a delimiter, delimiters are discarded, and empty segments are kept. -/
def splitOnPred (p : Char → Bool) : List Char → List (List Char)
  | [] => [[]]
  | c :: cs =>
    if p c then [] :: splitOnPred p cs
    else
      match splitOnPred p cs with
      | [] => [[c]]
      | seg :: segs => (c :: seg) :: segs

/-- str.split with the fixed separator of two newline characters:
left-to-right non-overlapping matches of the separator, empty segments
kept. -/
def splitOnDoubleNL : List Char → List (List Char)
  | '\n' :: '\n' :: rest => [] :: splitOnDoubleNL rest
  | c :: rest =>
    match splitOnDoubleNL rest with
    | [] => [[c]]
    | seg :: segs => (c :: seg) :: segs
  | [] => [[]]

/-- str.strip with no arguments: drop whitespace from both ends. -/
def pyStrip (s : List Char) : List Char :=
  ((s.dropWhile isPySpace).reverse.dropWhile isPySpace).reverse

/-- Worker for maximal-run extraction: acc holds the current run,
reversed. -/
def runsGo (p : Char → Bool) : List Char → List Char → List (List Char)
  | [], acc => if acc.isEmpty then [] else [acc.reverse]
  | c :: cs, acc =>
    if p c then runsGo p cs (c :: acc)
    else if acc.isEmpty then runsGo p cs []
    else acc.reverse :: runsGo p cs []

/-- The maximal runs of characters satisfying p, in order of appearance.
With p the word-character class this is re.findall of \w+; with p the
whitespace class it yields the candidate matches of \s with greedy
repetition. -/
def maximalRuns (p : Char → Bool) (t : List Char) : List (List Char) :=
  runsGo p t []

/-- str.split with no arguments: the maximal runs of non-whitespace
characters (empty tokens never occur). -/
def pySplitWs (s : List Char) : List (List Char) :=
  maximalRuns (fun c => !(isPySpace c)) s

/-- Is pat a prefix of the second list? -/
def startsWith : List Char → List Char → Bool
  | [], _ => true
  | _ :: _, [] => false
  | p :: ps, c :: cs => p == c && startsWith ps cs

/-- Python substring containment, the `in` operator on str. -/
def containsSub (pat : List Char) : List Char → Bool
  | [] => startsWith pat []
  | c :: cs => startsWith pat (c :: cs) || containsSub pat cs

/-- Round-half-to-even to an integer, the tie rule of the Python round
builtin, idealised over the rationals.  The fractional part rem / den is
compared with one half by comparing 2 * rem with den. -/
def roundHalfEven (q : ℚ) : ℤ :=
  let n := Int.ediv q.num (q.den : ℤ)
  let rem := q.num - n * (q.den : ℤ)
  if 2 * rem < (q.den : ℤ) then n
  else if (q.den : ℤ) < 2 * rem then n + 1
  else if n % 2 = 0 then n else n + 1

/-- round(x, 2): round to two decimal places.  The argument is scaled by
100 on the numerator, rounded to an integer, and divided back by 100. -/
def round2 (q : ℚ) : ℚ :=
  Rat.divInt (roundHalfEven (Rat.divInt (q.num * 100) (q.den : ℤ))) 100

/-- The TextMetrics dataclass of analysis.py.  The two averages, Python
floats in the source, are modelled as rationals. -/
structure TextMetrics where
  words : Nat
  sentences : Nat
  paragraphs : Nat
  average_sentence_length : ℚ
  average_paragraph_length : ℚ
  long_sentences : List (List Char)
  repeated_spaces : List (List Char)
  typography_alerts : List (List Char)
  deriving DecidableEq, Repr

/-- Line 26 of analysis.py: the stripped, non-empty paragraph segments. -/
def paragraphsOf (t : List Char) : List (List Char) :=
  ((splitOnDoubleNL t).map pyStrip).filter (fun p => !p.isEmpty)

/-- Lines 27 and 28 of analysis.py: the stripped, non-empty sentence
segments. -/
def sentencesOf (t : List Char) : List (List Char) :=
  ((splitOnPred isSentenceEnding t).map pyStrip).filter (fun s => !s.isEmpty)

/-- Line 29 of analysis.py: re.findall of \w+ over the text. -/
def wordTokensOf (t : List Char) : List (List Char) :=
  maximalRuns isWordChar t

/-- Line 31 of analysis.py: the unrounded average sentence length.  The
quotient of the two counts is built with Rat.divInt, which denotes the
same rational number as division in ℚ. -/
def averageSentenceLengthOf (t : List Char) : ℚ :=
  if (sentencesOf t).isEmpty then 0
  else Rat.divInt ((wordTokensOf t).length : ℤ) ((sentencesOf t).length : ℤ)

/-- Line 32 of analysis.py: the unrounded average paragraph length. -/
def averageParagraphLengthOf (t : List Char) : ℚ :=
  if (paragraphsOf t).isEmpty then 0
  else Rat.divInt ((wordTokensOf t).length : ℤ) ((paragraphsOf t).length : ℤ)

/-- Line 34 of analysis.py: sentences with more than 30 whitespace
tokens. -/
def longSentencesOf (t : List Char) : List (List Char) :=
  (sentencesOf t).filter (fun s => decide (30 < (pySplitWs s).length))

/-- Line 35 of analysis.py: the matches of the REPEATED_SPACES regex
\s{2,}, which are exactly the maximal whitespace runs of length at least
two. -/
def repeatedSpaceRunsOf (t : List Char) : List (List Char) :=
  (maximalRuns isPySpace t).filter (fun r => decide (2 ≤ r.length))

/-- The alert emitted when the text contains a space before a comma. -/
def msgComma : List Char := "فاصله قبل از ویرگول را حذف کنید.".data

/-- The alert emitted when the text contains a space before a
semicolon. -/
def msgSemicolon : List Char := "فاصله قبل از نقطه ویرگول نباید باشد.".data

/-- The alert emitted when the text contains two exclamation marks
separated by one space. -/
def msgExclaim : List Char := "از دو علامت تعجب پشت سر هم پرهیز کنید.".data

/-- The alert emitted when the text contains two question marks separated
by one space. -/
def msgQuestion : List Char := "از چند علامت سوال پشت سر هم پرهیز کنید.".data

/-- Lines 37 to 45 of analysis.py: the four substring checks, each
appending its fixed message at most once, in the fixed order. -/
def typographyAlertsOf (t : List Char) : List (List Char) :=
  (if containsSub (" ,".data) t then [msgComma] else []) ++
  ((if containsSub (" ;".data) t then [msgSemicolon] else []) ++
  ((if containsSub ("! !".data) t then [msgExclaim] else []) ++
  (if containsSub ("? ?".data) t then [msgQuestion] else [])))

/-- analyze_text of analysis.py. -/
def analyze_text (text : List Char) : TextMetrics :=
  { words := (wordTokensOf text).length
    sentences := (sentencesOf text).length
    paragraphs := (paragraphsOf text).length
    average_sentence_length := round2 (averageSentenceLengthOf text)
    average_paragraph_length := round2 (averageParagraphLengthOf text)
    long_sentences := longSentencesOf text
    repeated_spaces := repeatedSpaceRunsOf text
    typography_alerts := typographyAlertsOf text }

/-- One bullet line of the report: a dash, a space, the item, a
newline. -/
def bulletLine (s : List Char) : List Char :=
  '-' :: ' ' :: (s ++ ['\n'])

/-- The header line of the long-sentence section of the report. -/
def longHeader : List Char := "جمله‌های بلند (بیش از ۳۰ واژه):\n".data

/-- The flag line emitted when repeated spaces were found. -/
def spaceFlagLine : List Char := "هشدار: فاصله‌های تکراری پیدا شد.\n".data

/-- The header line of the typography-alert section of the report. -/
def typoHeader : List Char := "هشدارهای ویرایشی:\n".data

/-- Lines 60 to 67 of analysis.py: the unconditional head of the report.
The numeric fields are rendered with toString where Python interpolates
them into f-strings. -/
def metricLines (m : TextMetrics) : List (List Char) :=
  ["## شاخص‌های متن\n".data,
   ("- تعداد واژه‌ها: ".data) ++ (toString m.words).data ++ ['\n'],
   ("- تعداد جمله‌ها: ".data) ++ (toString m.sentences).data ++ ['\n'],
   ("- تعداد پاراگراف‌ها: ".data) ++ (toString m.paragraphs).data ++ ['\n'],
   ("- میانگین طول جمله: ".data) ++ (toString m.average_sentence_length).data
     ++ (" واژه\n".data),
   ("- میانگین طول پاراگراف: ".data)
     ++ (toString m.average_paragraph_length).data ++ (" واژه\n".data),
   ['\n']]

/-- Lines 69 to 73 of analysis.py: the long-sentence section, appended
only when long_sentences is non-empty. -/
def longSection (m : TextMetrics) : List (List Char) :=
  if m.long_sentences.isEmpty then []
  else longHeader :: (m.long_sentences.map bulletLine) ++ [['\n']]

/-- Lines 75 and 76 of analysis.py: the repeated-space flag line,
appended only when repeated_spaces is non-empty. -/
def flagSection (m : TextMetrics) : List (List Char) :=
  if m.repeated_spaces.isEmpty then [] else [spaceFlagLine]

/-- Lines 77 to 80 of analysis.py: the typography-alert section, appended
only when typography_alerts is non-empty. -/
def typoSection (m : TextMetrics) : List (List Char) :=
  if m.typography_alerts.isEmpty then []
  else typoHeader :: m.typography_alerts.map bulletLine

/-- The list of lines accumulated by format_metrics before the final
join. -/
def formatLines (m : TextMetrics) : List (List Char) :=
  metricLines m ++ longSection m ++ flagSection m ++ typoSection m

/-- format_metrics of analysis.py: the joined report string. -/
def format_metrics (m : TextMetrics) : String :=
  String.mk (formatLines m).flatten

/-- A text of n tokens, each the letter a followed by a space. -/
def repToken (n : Nat) : List Char :=
  (List.replicate n ('a' :: [' '])).flatten

/-- The ten-word three-sentence text used for the rounding example. -/
def demoAvg : List Char :=
  "one two three. four five six. seven eight nine ten.".data

/-- Direct recursive description of the maximal runs of characters
satisfying p: at a character satisfying p, the run is that character
together with the longest following stretch satisfying p, and extraction
resumes after that stretch; any other character is skipped. -/
def runsSpec (p : Char → Bool) : List Char → List (List Char)
  | [] => []
  | c :: t =>
    if p c then (c :: t.takeWhile p) :: runsSpec p (t.dropWhile p)
    else runsSpec p t
termination_by l => l.length
decreasing_by
  · simp only [List.length_cons, Nat.lt_succ_iff]
    apply List.Sublist.length_le
    apply List.dropWhile_sublist
  · simp only [List.length_cons, Nat.lt_succ_iff]
    exact Nat.le_refl _

/-! Helper lemmas about the splitting and run-extraction functions. -/

theorem splitOnPred_ne_nil (p : Char → Bool) (l : List Char) :
    splitOnPred p l ≠ [] := by
  cases l with
  | nil => simp [splitOnPred]
  | cons c cs =>
    simp only [splitOnPred]
    split
    · simp
    · split <;> simp

theorem splitOnPred_length_cons (p : Char → Bool) (c : Char) (cs : List Char) :
    (splitOnPred p (c :: cs)).length
      = if p c then (splitOnPred p cs).length + 1
        else (splitOnPred p cs).length := by
  simp only [splitOnPred]
  split
  · simp
  · split
    · next heq => exact absurd heq (splitOnPred_ne_nil p cs)
    · next seg segs heq => simp [heq]

theorem splitOnPred_length_mid (p : Char → Bool) (c : Char) (hc : p c = false)
    (a b : List Char) :
    (splitOnPred p (a ++ c :: b)).length
      = (splitOnPred p a).length + (splitOnPred p b).length - 1 := by
  induction a with
  | nil =>
    rw [List.nil_append, splitOnPred_length_cons, hc]
    simp [splitOnPred]
  | cons d a ih =>
    rw [List.cons_append, splitOnPred_length_cons, splitOnPred_length_cons]
    have l2 : 0 < (splitOnPred p a).length :=
      List.length_pos.mpr (splitOnPred_ne_nil p a)
    have l3 : 0 < (splitOnPred p b).length :=
      List.length_pos.mpr (splitOnPred_ne_nil p b)
    split <;> omega

theorem runsGo_mem_pred (p : Char → Bool) :
    ∀ (l acc : List Char), (∀ x ∈ acc, p x = true) →
      ∀ r ∈ runsGo p l acc, ∀ x ∈ r, p x = true := by
  intro l
  induction l with
  | nil =>
    intro acc hacc r hr
    unfold runsGo at hr
    split at hr
    · simp at hr
    · simp only [List.mem_singleton] at hr
      subst hr
      intro x hx
      exact hacc x (List.mem_reverse.mp hx)
  | cons c cs ih =>
    intro acc hacc r hr
    unfold runsGo at hr
    split at hr
    · next h =>
      refine ih (c :: acc) ?_ r hr
      intro x hx
      rcases List.mem_cons.mp hx with rfl | hx
      · exact h
      · exact hacc x hx
    · split at hr
      · exact ih [] (by simp) r hr
      · rcases List.mem_cons.mp hr with rfl | hr
        · intro x hx
          exact hacc x (List.mem_reverse.mp hx)
        · exact ih [] (by simp) r hr

theorem round2_zero : round2 0 = 0 := by decide

/-! An accumulator-free characterisation of maximal-run extraction, used
to state that repeated_space_runs really lists the maximal whitespace
runs in order of appearance. -/

theorem length_dropWhile_le_self (p : Char → Bool) :
    ∀ l : List Char, (l.dropWhile p).length ≤ l.length := by
  intro l
  induction l with
  | nil => simp
  | cons c cs ih =>
    rw [List.dropWhile_cons]
    split
    · exact Nat.le_succ_of_le ih
    · simp

theorem runsSpec_nil (p : Char → Bool) : runsSpec p [] = [] := by
  simp [runsSpec]

theorem runsSpec_cons (p : Char → Bool) (c : Char) (t : List Char) :
    runsSpec p (c :: t)
      = if p c then (c :: t.takeWhile p) :: runsSpec p (t.dropWhile p)
        else runsSpec p t := by
  simp [runsSpec]

theorem runsGo_nil_eq (p : Char → Bool) (acc : List Char) :
    runsGo p [] acc = if acc.isEmpty then [] else [acc.reverse] := rfl

theorem runsGo_cons_eq (p : Char → Bool) (c : Char) (cs acc : List Char) :
    runsGo p (c :: cs) acc
      = if p c then runsGo p cs (c :: acc)
        else if acc.isEmpty then runsGo p cs []
        else acc.reverse :: runsGo p cs [] := rfl

theorem isEmpty_false_of_ne_nil {acc : List Char} (hacc : acc ≠ []) :
    acc.isEmpty = false := by
  cases acc with
  | nil => exact absurd rfl hacc
  | cons a l => rfl

theorem runsGo_acc_cons (p : Char → Bool) :
    ∀ (t acc : List Char), acc ≠ [] →
      runsGo p t acc
        = (acc.reverse ++ t.takeWhile p) :: runsGo p (t.dropWhile p) [] := by
  intro t
  induction t with
  | nil =>
    intro acc hacc
    rw [runsGo_nil_eq, isEmpty_false_of_ne_nil hacc]
    simp [runsGo_nil_eq]
  | cons c cs ih =>
    intro acc hacc
    rw [runsGo_cons_eq, List.takeWhile_cons, List.dropWhile_cons,
      isEmpty_false_of_ne_nil hacc]
    cases hb : p c with
    | false =>
      simp only [Bool.false_eq_true, if_false, List.append_nil]
      rw [runsGo_cons_eq, hb]
      simp
    | true =>
      simp only [if_true]
      rw [ih (c :: acc) (by simp)]
      simp

theorem maximalRuns_eq_runsSpec (p : Char → Bool) (t : List Char) :
    maximalRuns p t = runsSpec p t := by
  have H : ∀ n, ∀ u : List Char, u.length ≤ n →
      maximalRuns p u = runsSpec p u := by
    intro n
    induction n with
    | zero =>
      intro u hu
      have hnil : u = [] := List.length_eq_zero.mp (Nat.le_zero.mp hu)
      subst hnil
      show runsGo p [] [] = runsSpec p []
      rw [runsGo_nil_eq, runsSpec_nil]
      simp
    | succ n ih =>
      intro u hu
      cases u with
      | nil =>
        show runsGo p [] [] = runsSpec p []
        rw [runsGo_nil_eq, runsSpec_nil]
        simp
      | cons c cs =>
        have hu' : cs.length ≤ n := by
          simpa [Nat.succ_le_succ_iff] using hu
        show runsGo p (c :: cs) [] = runsSpec p (c :: cs)
        rw [runsGo_cons_eq, runsSpec_cons]
        cases hb : p c with
        | false =>
          simp only [Bool.false_eq_true, if_false, List.isEmpty_nil, if_true]
          exact ih cs hu'
        | true =>
          simp only [if_true]
          rw [runsGo_acc_cons p cs [c] (by simp)]
          have hrec : runsGo p (cs.dropWhile p) []
              = runsSpec p (cs.dropWhile p) :=
            ih (cs.dropWhile p)
              (Nat.le_trans (length_dropWhile_le_self p cs) hu')
          rw [hrec]
          simp
  exact H t.length t (Nat.le_refl _)

/-- C1 (counterexample): the ASCII question mark is not in the
SENTENCE_ENDINGS class, so analyze of "A? B? C?" counts one sentence,
not the three the claim asserts. -/
theorem analyze_ascii_question_counterexample :
    (analyze_text ("A? B? C?".data)).sentences = 1 ∧
    (analyze_text ("A? B? C?".data)).sentences ≠ 3 := by decide

/-- C1 (amended): sentence segmentation splits on the ASCII period, the
Arabic question mark, the ASCII exclamation mark and the full-width
exclamation mark; the ASCII question mark is not a terminator, so joining
two texts with it adds no sentence boundary, and analyze of "A? B? C?"
yields one sentence. -/
theorem sentence_boundary_charset_amended :
    (isSentenceEnding '.' = true ∧ isSentenceEnding '؟' = true ∧
     isSentenceEnding '!' = true ∧ isSentenceEnding '！' = true ∧
     isSentenceEnding '?' = false) ∧
    (∀ a b : List Char,
      (splitOnPred isSentenceEnding (a ++ '?' :: b)).length
        = (splitOnPred isSentenceEnding a).length
          + (splitOnPred isSentenceEnding b).length - 1) ∧
    (analyze_text ("A? B? C?".data)).sentences = 1 := by
  refine ⟨by decide, ?_, by decide⟩
  exact splitOnPred_length_mid isSentenceEnding '?' (by decide)

/-- C2: analyze of "One. Two! Three?" yields three sentences: the period
and the exclamation mark split the text into three segments that are
non-empty after trimming. -/
theorem analyze_sentence_split_example :
    (analyze_text ("One. Two! Three?".data)).sentences = 3 := by decide

/-- C4: analyze of the empty string yields zero counts, zero averages and
empty lists; analyze is a total function of the input string, so it never
fails on any input. -/
theorem analyze_empty_total :
    analyze_text ("".data)
      = { words := 0, sentences := 0, paragraphs := 0,
          average_sentence_length := 0, average_paragraph_length := 0,
          long_sentences := [], repeated_spaces := [],
          typography_alerts := [] } := by decide

/-- C8: analyze is deterministic: equal inputs yield identical
TextMetrics in all fields. -/
theorem analyze_deterministic :
    ∀ t u : List Char, t = u → analyze_text t = analyze_text u :=
  fun _ _ h => h ▸ rfl

theorem analyze_deterministic_witness :
    analyze_text ("".data) = analyze_text ("".data) :=
  analyze_deterministic ("".data) ("".data) rfl

/-- C3: the rounded averages are the word count divided by the sentence
and paragraph counts, zero when the denominator is zero; ten words over
three sentences round to 3.33. -/
theorem average_lengths_spec (t : List Char) :
    ((analyze_text t).sentences = 0 →
      (analyze_text t).average_sentence_length = 0) ∧
    ((analyze_text t).sentences ≠ 0 →
      (analyze_text t).average_sentence_length
        = round2 (((analyze_text t).words : ℚ)
            / ((analyze_text t).sentences : ℚ))) ∧
    ((analyze_text t).paragraphs = 0 →
      (analyze_text t).average_paragraph_length = 0) ∧
    ((analyze_text t).paragraphs ≠ 0 →
      (analyze_text t).average_paragraph_length
        = round2 (((analyze_text t).words : ℚ)
            / ((analyze_text t).paragraphs : ℚ))) ∧
    ((analyze_text demoAvg).words = 10 ∧ (analyze_text demoAvg).sentences = 3 ∧
      (analyze_text demoAvg).average_sentence_length = 333 / 100) := by
  refine ⟨?_, ?_, ?_, ?_, by decide, by decide, ?_⟩
  · intro h
    cases hs : sentencesOf t with
    | nil =>
      show round2 (averageSentenceLengthOf t) = 0
      unfold averageSentenceLengthOf
      rw [hs]
      simpa using round2_zero
    | cons a l =>
      exact absurd (show (sentencesOf t).length = 0 from h) (by rw [hs]; simp)
  · intro h
    cases hs : sentencesOf t with
    | nil =>
      exact absurd (show (sentencesOf t).length = 0 by rw [hs]; rfl) h
    | cons a l =>
      show round2 (averageSentenceLengthOf t)
          = round2 (((wordTokensOf t).length : ℚ) / ((sentencesOf t).length : ℚ))
      unfold averageSentenceLengthOf
      rw [hs, Rat.divInt_eq_div]
      simp
  · intro h
    cases hs : paragraphsOf t with
    | nil =>
      show round2 (averageParagraphLengthOf t) = 0
      unfold averageParagraphLengthOf
      rw [hs]
      simpa using round2_zero
    | cons a l =>
      exact absurd (show (paragraphsOf t).length = 0 from h) (by rw [hs]; simp)
  · intro h
    cases hs : paragraphsOf t with
    | nil =>
      exact absurd (show (paragraphsOf t).length = 0 by rw [hs]; rfl) h
    | cons a l =>
      show round2 (averageParagraphLengthOf t)
          = round2 (((wordTokensOf t).length : ℚ) / ((paragraphsOf t).length : ℚ))
      unfold averageParagraphLengthOf
      rw [hs, Rat.divInt_eq_div]
      simp
  · have h : (analyze_text demoAvg).average_sentence_length
        = Rat.divInt 333 100 := by decide
    rw [h, Rat.divInt_eq_div]
    norm_num

theorem average_lengths_spec_witness :
    (analyze_text ("".data)).average_sentence_length = 0 :=
  (average_lengths_spec ("".data)).1 (by decide)

/-- C5: long_sentences is exactly the ordered sublist of the sentence
list whose members have more than 30 whitespace-delimited tokens; a
30-token sentence is excluded and a 31-token sentence included. -/
theorem long_sentences_spec :
    (∀ t : List Char, (analyze_text t).long_sentences
        = (sentencesOf t).filter (fun s => decide (30 < (pySplitWs s).length))) ∧
    (analyze_text (repToken 30)).long_sentences = [] ∧
    (analyze_text (repToken 31)).long_sentences = [pyStrip (repToken 31)] :=
  ⟨fun _ => rfl, by decide, by decide⟩

/-- C6: repeated_space_runs is the ordered list of the maximal
whitespace runs of the raw text that have length at least two, as
captured by the direct run description runsSpec; every entry consists of
at least two whitespace characters, and analyze of "a  b   c" reports
the two runs verbatim and in order. -/
theorem repeated_space_runs_spec :
    (∀ t : List Char, (analyze_text t).repeated_spaces
        = (runsSpec isPySpace t).filter (fun r => decide (2 ≤ r.length))) ∧
    (∀ t : List Char, ∀ r ∈ (analyze_text t).repeated_spaces,
        2 ≤ r.length ∧ ∀ x ∈ r, isPySpace x = true) ∧
    (analyze_text ("a  b   c".data)).repeated_spaces
      = ["  ".data, "   ".data] := by
  refine ⟨?_, ?_, by decide⟩
  · intro t
    show repeatedSpaceRunsOf t = _
    unfold repeatedSpaceRunsOf
    rw [maximalRuns_eq_runsSpec]
  · intro t r hr
    have hf : r ∈ (maximalRuns isPySpace t).filter
        (fun r => decide (2 ≤ r.length)) := hr
    rw [List.mem_filter] at hf
    refine ⟨of_decide_eq_true hf.2, ?_⟩
    exact runsGo_mem_pred isPySpace t [] (by simp) r hf.1

theorem repeated_space_runs_spec_witness :
    2 ≤ (("  ".data : List Char)).length :=
  (repeated_space_runs_spec.2.1 ("a  b   c".data) ("  ".data) (by decide)).1

/-- C7: typography_alerts is exactly the concatenation, in the fixed
check order, of one fixed message per matching substring check, so each
matching check contributes its message exactly once; for "word , next"
the comma alert appears exactly once. -/
theorem typography_alerts_spec (t : List Char) :
    (analyze_text t).typography_alerts
      = (if containsSub (" ,".data) t then [msgComma] else []) ++
        ((if containsSub (" ;".data) t then [msgSemicolon] else []) ++
        ((if containsSub ("! !".data) t then [msgExclaim] else []) ++
        (if containsSub ("? ?".data) t then [msgQuestion] else []))) ∧
    ((analyze_text ("word , next".data)).typography_alerts.count msgComma
      = 1) :=
  ⟨rfl, by decide⟩

theorem sublist_if_single {α : Type} (A : Bool) (a : α) :
    List.Sublist (if A then [a] else []) [a] := by
  cases A
  · simp
  · simp

theorem sublist_if_cons {α : Type} (A : Bool) (a : α) (l L : List α)
    (h : List.Sublist l L) :
    List.Sublist ((if A then [a] else []) ++ l) (a :: L) := by
  cases A
  · simpa using List.Sublist.cons a h
  · simpa using List.Sublist.cons₂ a h

/-- C10: typography_alerts is always a subsequence of the fixed
four-message list, contains no duplicates, and has length at most
four. -/
theorem typography_alerts_invariant (t : List Char) :
    List.Sublist (analyze_text t).typography_alerts
        [msgComma, msgSemicolon, msgExclaim, msgQuestion] ∧
    (analyze_text t).typography_alerts.Nodup ∧
    (analyze_text t).typography_alerts.length ≤ 4 := by
  have hsub : List.Sublist (typographyAlertsOf t)
      [msgComma, msgSemicolon, msgExclaim, msgQuestion] := by
    unfold typographyAlertsOf
    exact sublist_if_cons _ _ _ _ (sublist_if_cons _ _ _ _
      (sublist_if_cons _ _ _ _ (sublist_if_single _ _)))
  refine ⟨hsub, List.Nodup.sublist hsub (by decide), ?_⟩
  simpa using List.Sublist.length_le hsub

/-! Helper lemmas about the report lines. -/

theorem ne_of_headq (a b : List Char) (x y : Char) (ha : a.head? = some x)
    (hb : b.head? = some y) (hxy : x ≠ y) : a ≠ b := by
  intro e
  rw [e, hb] at ha
  exact hxy (Option.some.inj ha).symm

theorem mem_map_bulletLine_head {l : List (List Char)} {x : List Char}
    (h : x ∈ l.map bulletLine) : x.head? = some '-' := by
  rcases List.mem_map.mp h with ⟨s, _, rfl⟩
  rfl

theorem metricLines_head (m : TextMetrics) :
    ∀ line ∈ metricLines m,
      line.head? = some '#' ∨ line.head? = some '-' ∨ line.head? = some '\n' := by
  intro line hline
  simp only [metricLines, List.mem_cons, List.not_mem_nil, or_false] at hline
  rcases hline with h | h | h | h | h | h | h
  · subst h; exact Or.inl rfl
  · subst h; exact Or.inr (Or.inl rfl)
  · subst h; exact Or.inr (Or.inl rfl)
  · subst h; exact Or.inr (Or.inl rfl)
  · subst h; exact Or.inr (Or.inl rfl)
  · subst h; exact Or.inr (Or.inl rfl)
  · subst h; exact Or.inr (Or.inr rfl)

theorem notin_metricLines_of_head (m : TextMetrics) (a : List Char) (c : Char)
    (ha : a.head? = some c) (h1 : c ≠ '#') (h2 : c ≠ '-') (h3 : c ≠ '\n') :
    a ∉ metricLines m := by
  intro h
  rcases metricLines_head m a h with hh | hh | hh
  · rw [ha] at hh; exact h1 (Option.some.inj hh)
  · rw [ha] at hh; exact h2 (Option.some.inj hh)
  · rw [ha] at hh; exact h3 (Option.some.inj hh)

theorem longHeader_in_longSection (m : TextMetrics) :
    longHeader ∈ longSection m ↔ m.long_sentences ≠ [] := by
  unfold longSection
  cases hls : m.long_sentences with
  | nil => simp
  | cons a l => simp

theorem typoHeader_in_typoSection (m : TextMetrics) :
    typoHeader ∈ typoSection m ↔ m.typography_alerts ≠ [] := by
  unfold typoSection
  cases hls : m.typography_alerts with
  | nil => simp
  | cons a l => simp

theorem spaceFlagLine_in_flagSection (m : TextMetrics) :
    spaceFlagLine ∈ flagSection m ↔ m.repeated_spaces ≠ [] := by
  unfold flagSection
  cases hls : m.repeated_spaces with
  | nil => simp
  | cons a l => simp

theorem longHeader_notin_flagSection (m : TextMetrics) :
    longHeader ∉ flagSection m := by
  unfold flagSection
  split
  · simp
  · intro h
    simp only [List.mem_singleton] at h
    exact absurd h (by decide)

theorem longHeader_notin_typoSection (m : TextMetrics) :
    longHeader ∉ typoSection m := by
  unfold typoSection
  split
  · simp
  · intro h
    rcases List.mem_cons.mp h with h | h
    · exact absurd h (by decide)
    · have hh := mem_map_bulletLine_head h
      rw [show longHeader.head? = some 'ج' from rfl] at hh
      exact absurd (Option.some.inj hh) (by decide)

theorem typoHeader_notin_longSection (m : TextMetrics) :
    typoHeader ∉ longSection m := by
  unfold longSection
  split
  · simp
  · intro h
    rcases List.mem_cons.mp h with h | h
    · exact absurd h (by decide)
    · rcases List.mem_append.mp h with h | h
      · have hh := mem_map_bulletLine_head h
        rw [show typoHeader.head? = some 'ه' from rfl] at hh
        exact absurd (Option.some.inj hh) (by decide)
      · simp only [List.mem_singleton] at h
        exact absurd h (by decide)

theorem typoHeader_notin_flagSection (m : TextMetrics) :
    typoHeader ∉ flagSection m := by
  unfold flagSection
  split
  · simp
  · intro h
    simp only [List.mem_singleton] at h
    exact absurd h (by decide)

theorem spaceFlagLine_notin_longSection (m : TextMetrics) :
    spaceFlagLine ∉ longSection m := by
  unfold longSection
  split
  · simp
  · intro h
    rcases List.mem_cons.mp h with h | h
    · exact absurd h (by decide)
    · rcases List.mem_append.mp h with h | h
      · have hh := mem_map_bulletLine_head h
        rw [show spaceFlagLine.head? = some 'ه' from rfl] at hh
        exact absurd (Option.some.inj hh) (by decide)
      · simp only [List.mem_singleton] at h
        exact absurd h (by decide)

theorem spaceFlagLine_notin_typoSection (m : TextMetrics) :
    spaceFlagLine ∉ typoSection m := by
  unfold typoSection
  split
  · simp
  · intro h
    rcases List.mem_cons.mp h with h | h
    · exact absurd h (by decide)
    · have hh := mem_map_bulletLine_head h
      rw [show spaceFlagLine.head? = some 'ه' from rfl] at hh
      exact absurd (Option.some.inj hh) (by decide)

/-- C9: the report contains the long-sentence header exactly when
long_sentences is non-empty, and then the header is followed by exactly
one bullet line per long sentence; the typography header appears exactly
when typography_alerts is non-empty, and the repeated-space flag line
exactly when repeated_spaces is non-empty. -/
theorem format_report_sections (m : TextMetrics) :
    (longHeader ∈ formatLines m ↔ m.long_sentences ≠ []) ∧
    (m.long_sentences ≠ [] → ∃ pre post, formatLines m
        = pre ++ longHeader :: ((m.long_sentences.map bulletLine) ++ post)) ∧
    (typoHeader ∈ formatLines m ↔ m.typography_alerts ≠ []) ∧
    (spaceFlagLine ∈ formatLines m ↔ m.repeated_spaces ≠ []) := by
  have hL := notin_metricLines_of_head m longHeader 'ج' rfl
    (by decide) (by decide) (by decide)
  have hT := notin_metricLines_of_head m typoHeader 'ه' rfl
    (by decide) (by decide) (by decide)
  have hF := notin_metricLines_of_head m spaceFlagLine 'ه' rfl
    (by decide) (by decide) (by decide)
  refine ⟨⟨?_, ?_⟩, ?_, ⟨?_, ?_⟩, ⟨?_, ?_⟩⟩
  · intro h
    unfold formatLines at h
    rcases List.mem_append.mp h with h | h
    · rcases List.mem_append.mp h with h | h
      · rcases List.mem_append.mp h with h | h
        · exact absurd h hL
        · exact (longHeader_in_longSection m).mp h
      · exact absurd h (longHeader_notin_flagSection m)
    · exact absurd h (longHeader_notin_typoSection m)
  · intro h
    unfold formatLines
    exact List.mem_append.mpr (Or.inl (List.mem_append.mpr (Or.inl
      (List.mem_append.mpr (Or.inr ((longHeader_in_longSection m).mpr h))))))
  · intro h
    refine ⟨metricLines m, ['\n'] :: (flagSection m ++ typoSection m), ?_⟩
    have he : m.long_sentences.isEmpty = false := by
      cases hls : m.long_sentences with
      | nil => exact absurd hls h
      | cons a l => rfl
    unfold formatLines longSection
    rw [he]
    simp
  · intro h
    unfold formatLines at h
    rcases List.mem_append.mp h with h | h
    · rcases List.mem_append.mp h with h | h
      · rcases List.mem_append.mp h with h | h
        · exact absurd h hT
        · exact absurd h (typoHeader_notin_longSection m)
      · exact absurd h (typoHeader_notin_flagSection m)
    · exact (typoHeader_in_typoSection m).mp h
  · intro h
    unfold formatLines
    exact List.mem_append.mpr (Or.inr ((typoHeader_in_typoSection m).mpr h))
  · intro h
    unfold formatLines at h
    rcases List.mem_append.mp h with h | h
    · rcases List.mem_append.mp h with h | h
      · rcases List.mem_append.mp h with h | h
        · exact absurd h hF
        · exact absurd h (spaceFlagLine_notin_longSection m)
      · exact (spaceFlagLine_in_flagSection m).mp h
    · exact absurd h (spaceFlagLine_notin_typoSection m)
  · intro h
    unfold formatLines
    exact List.mem_append.mpr (Or.inl (List.mem_append.mpr (Or.inr
      ((spaceFlagLine_in_flagSection m).mpr h))))

theorem format_report_sections_witness :
    longHeader ∈ formatLines
      { words := 1, sentences := 1, paragraphs := 1,
        average_sentence_length := 1, average_paragraph_length := 1,
        long_sentences := [("abc".data)], repeated_spaces := [],
        typography_alerts := [] } :=
  (format_report_sections _).1.mpr (by decide)

